import Mathlib

/-!
Shallow embedding of the meeting-transcription pipeline
(`src/test_models/*.py`, `src/utils/config.py`).

Conventions of the embedding:
* pandas `DataFrame`s become `List` of row structures;
* floating-point times, durations and rates become `ℚ`;
* each external neural-model invocation (diarization, ASR, correction,
  summarization) is an oracle parameter; a raised exception is the
  `none` / error case of the oracle's answer;
* writing a CSV/JSON/text file is recorded by returning the written
  path(s); wall-clock metric fields (`execution_time`,
  `avg_processing_time_*`) are omitted since real time is outside the
  model, all other metric fields are kept;
* Python `str.strip` / `str.split()` / slicing are modelled by the
  structural functions `pyStrip`, `pySplit`, `pyTake` below.
-/

/-! ### Python string primitives -/

/-- Drop leading whitespace characters (helper for `pyStrip`). -/
def dropWs : List Char → List Char
  | [] => []
  | c :: cs => if c.isWhitespace then dropWs cs else c :: cs

/-- Python `str.strip()`: remove leading and trailing whitespace. -/
def pyStrip (s : String) : String :=
  ⟨(dropWs (dropWs s.data).reverse).reverse⟩

/-- Accumulator loop for `pySplit`. -/
def wordsAux : List Char → List Char → List String
  | [], cur => if cur.isEmpty then [] else [⟨cur.reverse⟩]
  | c :: cs, cur =>
    if c.isWhitespace then
      if cur.isEmpty then wordsAux cs [] else String.mk cur.reverse :: wordsAux cs []
    else wordsAux cs (c :: cur)

/-- Python `str.split()` with no argument: maximal runs of
non-whitespace characters. -/
def pySplit (s : String) : List String := wordsAux s.data []

/-- Python `s[:n]`: the first `n` characters of `s`. -/
def pyTake (s : String) (n : ℕ) : String := ⟨s.data.take n⟩

/-- Python `int()` applied to a nonnegative-or-negative rational:
truncation toward zero. -/
def pyInt (q : ℚ) : ℤ := if 0 ≤ q then ⌊q⌋ else ⌈q⌉

/-! ### Configuration (`src/utils/config.py`, class `ModelConfig`) -/

/-- `ModelConfig.MIN_SEGMENT_DURATION = 0.5` seconds. -/
def MIN_SEGMENT_DURATION : ℚ := 1/2

/-- `ModelConfig.MAX_SUMMARY_INPUT_LENGTH = 2000` characters. -/
def MAX_SUMMARY_INPUT_LENGTH : ℕ := 2000

/-! ### Diarization stage (`src/test_models/test_diarization.py`) -/

/-- One `(turn, _, speaker)` track yielded by the pyannote pipeline. -/
structure RawTurn where
  turnStart : ℚ
  turnEnd : ℚ
  speaker : String
deriving DecidableEq

/-- A row of the diarization output table. -/
structure DiarSegment where
  speaker : String
  start_time : ℚ
  end_time : ℚ
  duration : ℚ
deriving DecidableEq

/-- Metrics dict of `perform_diarization`: the empty-table branch keeps
only `segments_count = 0`, the other branch the full counters. -/
inductive DiarMetrics
  | noSegments
  | stats (segments_count : ℕ) (speakers_count : ℕ) (audio_duration : ℚ)
deriving DecidableEq

/-- The segment-collection loop of `perform_diarization`: a turn shorter
than `MIN_SEGMENT_DURATION` is skipped (`continue`), any other turn
becomes a row with `duration = end - start`. -/
def diarSegments (turns : List RawTurn) : List DiarSegment :=
  (turns.filter
      (fun t => !decide (t.turnEnd - t.turnStart < MIN_SEGMENT_DURATION))).map
    (fun t => ⟨t.speaker, t.turnStart, t.turnEnd, t.turnEnd - t.turnStart⟩)

/-- `sort_values("start_time")` on the diarization table. -/
def sortDiarByStart (l : List DiarSegment) : List DiarSegment :=
  l.insertionSort (fun a b => a.start_time ≤ b.start_time)

/-- pandas `Series.nunique()` on a string column. -/
def nunique (l : List String) : ℕ := l.dedup.length

/-- pandas `Series.max()` on a nonempty rational column (0 on empty,
which the source never queries). -/
def colMax : List ℚ → ℚ
  | [] => 0
  | x :: xs => xs.foldl max x

/-- `perform_diarization`: returns the output table, the metrics dict
and the list of files written (`to_csv` happens only in the nonempty
branch). -/
def perform_diarization (turns : List RawTurn) (output_csv_path : String) :
    List DiarSegment × DiarMetrics × List String :=
  let segments := diarSegments turns
  if segments.isEmpty then
    ([], DiarMetrics.noSegments, [])
  else
    let results_dataframe := sortDiarByStart segments
    (results_dataframe,
      DiarMetrics.stats results_dataframe.length
        (nunique (results_dataframe.map (fun s => s.speaker)))
        (colMax (results_dataframe.map (fun s => s.end_time))),
      [output_csv_path])

/-! ### Recognition stage (`src/test_models/test_asr.py`) -/

/-- One element of the list built by `extract_audio_segments`: the
original row's fields, the millisecond slice bounds
`int(start_time * 1000)` / `int(end_time * 1000)` actually used to cut
the audio, and the running dataframe index. -/
structure ExtractedSegment where
  speaker : String
  start_time : ℚ
  end_time : ℚ
  duration : ℚ
  startMs : ℤ
  endMs : ℤ
  segment_index : ℕ
deriving DecidableEq

/-- Loop body of `extract_audio_segments` with the running index. -/
def extractLoop : ℕ → List DiarSegment → List ExtractedSegment
  | _, [] => []
  | i, r :: rs =>
    ⟨r.speaker, r.start_time, r.end_time, r.duration,
      pyInt (r.start_time * 1000), pyInt (r.end_time * 1000), i⟩ ::
      extractLoop (i + 1) rs

/-- `extract_audio_segments`: one extracted segment per diarization row. -/
def extract_audio_segments (rows : List DiarSegment) : List ExtractedSegment :=
  extractLoop 0 rows

/-- A row of the recognition output table. -/
structure AsrRow where
  speaker : String
  start_time : ℚ
  end_time : ℚ
  duration : ℚ
  text : String
  word_count : ℕ
deriving DecidableEq

/-- Outcome of one `export` + `asr_pipeline` attempt on a segment:
either the raw transcription text, or an exception from `export`
(with or without the file already created), or an exception from the
ASR call (file created). -/
inductive AsrOutcome
  | success (rawText : String)
  | exportError (fileCreated : Bool)
  | asrError
deriving DecidableEq

/-- `temp_{speaker}_{segment_index}.wav`. -/
def tempFileName (seg : ExtractedSegment) : String :=
  "temp_" ++ seg.speaker ++ "_" ++ toString seg.segment_index ++ ".wav"

/-- One iteration of the `transcribe_audio_segments` loop on the file
system `fs`: the `try` block exports and transcribes, the result is kept
only when the stripped text is truthy and not a placeholder, an
exception skips the segment, and the `finally` block removes the temp
file whenever it exists. -/
def processSegment (fs : List String) (seg : ExtractedSegment)
    (outcome : AsrOutcome) : Option AsrRow × List String :=
  let temp := tempFileName seg
  let fsTry : List String :=
    match outcome with
    | AsrOutcome.success _ => temp :: fs
    | AsrOutcome.exportError created => if created then temp :: fs else fs
    | AsrOutcome.asrError => temp :: fs
  let result : Option AsrRow :=
    match outcome with
    | AsrOutcome.success rawText =>
      let text := pyStrip rawText
      if text ≠ "" ∧ text ∉ ["", ".", "..."] then
        some ⟨seg.speaker, seg.start_time, seg.end_time, seg.duration,
          text, (pySplit text).length⟩
      else none
    | _ => none
  (result, fsTry.filter (fun f => f ≠ temp))

/-- The full `transcribe_audio_segments` loop: results in segment order,
file-system state threaded through. -/
def transcribeLoop (outcomes : ℕ → AsrOutcome) :
    List ExtractedSegment → List String → List AsrRow × List String
  | [], fs => ([], fs)
  | seg :: rest, fs =>
    let step := processSegment fs seg (outcomes seg.segment_index)
    let tail := transcribeLoop outcomes rest step.2
    (step.1.toList ++ tail.1, tail.2)

/-- `transcribe_audio_segments` started on an empty temp-file state. -/
def transcribe_audio_segments (segments : List ExtractedSegment)
    (outcomes : ℕ → AsrOutcome) : List AsrRow :=
  (transcribeLoop outcomes segments []).1

/-- `sort_values("start_time")` on the recognition table. -/
def sortAsrByStart (l : List AsrRow) : List AsrRow :=
  l.insertionSort (fun a b => a.start_time ≤ b.start_time)

/-- Metrics dict of `perform_speech_recognition`: the empty-table branch
keeps only `segments_processed`, the other branch the full counters. -/
inductive AsrMetrics
  | noSpeech (segments_processed : ℕ)
  | stats (segments_processed : ℕ) (segments_with_speech : ℕ)
      (success_rate : ℚ) (total_words : ℕ) (speakers_count : ℕ)
deriving DecidableEq

/-- `perform_speech_recognition`: extract, transcribe, sort, persist
(only when nonempty), and collect metrics. -/
def perform_speech_recognition (diarRows : List DiarSegment)
    (outcomes : ℕ → AsrOutcome) (output_csv_path : String) :
    List AsrRow × AsrMetrics × List String :=
  let audio_segments := extract_audio_segments diarRows
  let transcription_results := transcribe_audio_segments audio_segments outcomes
  if transcription_results.isEmpty then
    ([], AsrMetrics.noSpeech audio_segments.length, [])
  else
    let results_dataframe := sortAsrByStart transcription_results
    (results_dataframe,
      AsrMetrics.stats audio_segments.length results_dataframe.length
        (if 0 < audio_segments.length then
          (results_dataframe.length : ℚ) / audio_segments.length
        else 0)
        ((results_dataframe.map (fun r => r.word_count)).sum)
        (nunique (results_dataframe.map (fun r => r.speaker))),
      [output_csv_path])

/-! ### Correction stage (`src/test_models/test_correction.py`) -/

/-- A row of the correction output table: the input row plus the
`corrected_text` column. -/
structure CorrRow where
  speaker : String
  start_time : ℚ
  end_time : ℚ
  duration : ℚ
  text : String
  word_count : ℕ
  corrected_text : String
deriving DecidableEq

/-- `correct_text`: `outcome` is the correction model's answer, `none`
when the call raises; then the original text is returned with a `false`
success status. -/
def correct_text (input_text : String) (outcome : Option String) :
    String × Bool :=
  match outcome with
  | some corrected => (corrected, true)
  | none => (input_text, false)

/-- The row-building loop of `test_correction` with its running index:
every input row yields exactly one output row carrying the corrected
(or fallen-back) text. -/
def correctionLoop (oracle : ℕ → Option String) :
    ℕ → List AsrRow → List CorrRow
  | _, [] => []
  | i, r :: rs =>
    ⟨r.speaker, r.start_time, r.end_time, r.duration, r.text, r.word_count,
      (correct_text r.text (oracle i)).1⟩ :: correctionLoop oracle (i + 1) rs

/-- The `successful_corrections` counter of the same loop. -/
def correctionSuccesses (oracle : ℕ → Option String) :
    ℕ → List AsrRow → ℕ
  | _, [] => 0
  | i, r :: rs =>
    (if (correct_text r.text (oracle i)).2 then 1 else 0) +
      correctionSuccesses oracle (i + 1) rs

/-- Metrics dict of `test_correction` (data-determined fields). -/
structure CorrMetrics where
  segments_count : ℕ
  successful_corrections : ℕ
  success_rate : ℚ
  total_characters_processed : ℕ
deriving DecidableEq

/-- `test_correction`: corrects every row, always writes its CSV, and
reports `success_rate = successes / total` (0 on an empty table). -/
def test_correction (rows : List AsrRow) (oracle : ℕ → Option String)
    (output_csv_path : String) : List CorrRow × CorrMetrics × List String :=
  let outRows := correctionLoop oracle 0 rows
  let successful := correctionSuccesses oracle 0 rows
  (outRows,
    ⟨rows.length, successful,
      (if 0 < rows.length then (successful : ℚ) / rows.length else 0),
      ((rows.map (fun r => r.text.length)).sum)⟩,
    [output_csv_path])

/-! ### Summarization stage (`src/test_models/test_summarization.py`) -/

/-- `summarize_text`: `outcome` is the summarization model's decoded
answer (then stripped), `none` when the call raises; the fallback is the
first 200 characters of the input plus an ellipsis, with a `false`
success status. -/
def summarize_text (input_text : String) (outcome : Option String) :
    String × Bool :=
  match outcome with
  | some decoded => (pyStrip decoded, true)
  | none => (pyTake input_text 200 ++ "...", false)

/-- The pre-summarization truncation of `test_summarization`. -/
def truncate_for_summary (s : String) : String :=
  if MAX_SUMMARY_INPUT_LENGTH < s.length then
    pyTake s MAX_SUMMARY_INPUT_LENGTH ++ "..."
  else s

/-- The group keys of `groupby("speaker")`: pandas sorts the distinct
keys ascending (`sort=True` default). -/
def sorted_distinct_speakers (rows : List CorrRow) : List String :=
  ((rows.map (fun r => r.speaker)).dedup).insertionSort (fun a b => a ≤ b)

/-- `" ".join` of one speaker's `corrected_text` values in input row
order (`groupby` preserves within-group order). -/
def speaker_joined_text (rows : List CorrRow) (spk : String) : String :=
  String.intercalate " "
    ((rows.filter (fun r => r.speaker = spk)).map (fun r => r.corrected_text))

/-- `groupby("speaker")["corrected_text"].apply(" ".join).reset_index()`:
one `(speaker, joined text)` row per distinct speaker, keys sorted. -/
def speaker_texts (rows : List CorrRow) : List (String × String) :=
  (sorted_distinct_speakers rows).map
    (fun s => (s, speaker_joined_text rows s))

/-- A row of the summarization output table. -/
structure SummaryRow where
  speaker : String
  original_text_length : ℕ
  summary_length : ℕ
  compression_ratio : ℚ
  summary : String
deriving DecidableEq

/-- The per-speaker loop body of `test_summarization`: the processed
(possibly truncated) text handed to the summarization call, the output
row, and the success flag. -/
def summarize_speaker (oracle : String → Option String)
    (spk original_text : String) : String × SummaryRow × Bool :=
  let processed_text := truncate_for_summary original_text
  let st := summarize_text processed_text (oracle processed_text)
  let ratio : ℚ :=
    if 0 < original_text.length then
      (st.1.length : ℚ) / original_text.length
    else 0
  (processed_text,
    ⟨spk, original_text.length, st.1.length, ratio, st.1⟩, st.2)

/-- Metrics dict of `test_summarization` (data-determined fields). -/
structure SummMetrics where
  speakers_count : ℕ
  successful_summaries : ℕ
  success_rate : ℚ
  avg_compression_ratio : ℚ
  total_characters_processed : ℕ
deriving DecidableEq

/-- `test_summarization`: group by speaker, summarize each group's
joined text, always write the CSV, and collect metrics. -/
def test_summarization (rows : List CorrRow) (oracle : String → Option String)
    (output_csv_path : String) : List SummaryRow × SummMetrics × List String :=
  let pairs := (speaker_texts rows).map
    (fun p => summarize_speaker oracle p.1 p.2)
  let summaries := pairs.map (fun t => t.2.1)
  let successful := (pairs.filter (fun t => t.2.2)).length
  let n := (speaker_texts rows).length
  let ratios := summaries.map (fun r => r.compression_ratio)
  (summaries,
    ⟨n, successful,
      (if 0 < n then (successful : ℚ) / n else 0),
      (if 0 < ratios.length then ratios.sum / ratios.length else 0),
      ((summaries.map (fun r => r.original_text_length)).sum)⟩,
    [output_csv_path])

/-- `n` copies of character `c` as a string (Python `"=" * n`). -/
def repeatChar (c : Char) (n : ℕ) : String := ⟨List.replicate n c⟩

/-- One speaker block of the meeting-minutes document. -/
def minutesBlock (r : SummaryRow) : String :=
  "СПИКЕР: " ++ r.speaker ++ "\n" ++ "КЛЮЧЕВЫЕ ТЕЗИСЫ:\n" ++
    r.summary ++ "\n" ++ repeatChar '-' 50 ++ "\n\n"

/-- `create_meeting_minutes`: the document text and the file written. -/
def create_meeting_minutes (summaries : List SummaryRow)
    (output_file_path : String) : String × List String :=
  ("ПРОТОКОЛ ВСТРЕЧИ\n" ++ repeatChar '=' 50 ++ "\n\n" ++
      String.join (summaries.map minutesBlock),
    [output_file_path])

/-! ### Pipeline driver (`src/test_models/run_all_tests.py`) -/

/-- The oracle answers of the four external models for one run. -/
structure PipelineInput where
  diarTurns : List RawTurn
  asrOutcomes : ℕ → AsrOutcome
  corrOracle : ℕ → Option String
  summOracle : String → Option String

/-- One stage's entry in the `all_metrics` dict. -/
inductive StageMetrics
  | diar (m : DiarMetrics)
  | asr (m : AsrMetrics)
  | corr (m : CorrMetrics)
  | summ (m : SummMetrics)
deriving DecidableEq

/-- Observable result of `run_complete_pipeline`: the returned metrics
dict (insertion order) and every file written during the run. -/
structure PipelineResult where
  metrics : List (String × StageMetrics)
  files_written : List String
deriving DecidableEq

/-- `run_complete_pipeline`: the four stages in sequence, stopping after
diarization or recognition when the produced table is empty, otherwise
running correction, summarization, the minutes formatter and the final
metrics-JSON dump. -/
def run_complete_pipeline (inp : PipelineInput) (output_pref : String) :
    PipelineResult :=
  let d := perform_diarization inp.diarTurns (output_pref ++ "_diarization.csv")
  let m1 := [("diarization", StageMetrics.diar d.2.1)]
  if d.1.isEmpty then ⟨m1, d.2.2⟩
  else
    let a := perform_speech_recognition d.1 inp.asrOutcomes
      (output_pref ++ "_asr.csv")
    let m2 := m1 ++ [("asr", StageMetrics.asr a.2.1)]
    if a.1.isEmpty then ⟨m2, d.2.2 ++ a.2.2⟩
    else
      let c := test_correction a.1 inp.corrOracle
        (output_pref ++ "_correction.csv")
      let s := test_summarization c.1 inp.summOracle
        (output_pref ++ "_summarization.csv")
      let minutes := create_meeting_minutes s.1
        (output_pref ++ "_meeting_minutes.txt")
      ⟨m2 ++ [("correction", StageMetrics.corr c.2.1),
          ("summarization", StageMetrics.summ s.2.1)],
        d.2.2 ++ a.2.2 ++ c.2.2 ++ s.2.2 ++ minutes.2 ++
          [output_pref ++ "_metrics.json"]⟩

/-- Formalization of the claim's wording for the extraction contract
(not of the code): the recognition stage extracts exactly the range
`[start_time, end_time)`, i.e. the millisecond bounds it computes
convert back to the row's times without loss. -/
def extractsExactRange (rows : List DiarSegment) : Prop :=
  ∀ seg ∈ extract_audio_segments rows,
    (seg.startMs : ℚ) / 1000 = seg.start_time ∧
    (seg.endMs : ℚ) / 1000 = seg.end_time

/-! ### Order instances for the sort keys -/

instance : IsTotal DiarSegment (fun a b => a.start_time ≤ b.start_time) :=
  ⟨fun _ _ => le_total _ _⟩

instance : IsTrans DiarSegment (fun a b => a.start_time ≤ b.start_time) :=
  ⟨fun _ _ _ h h2 => le_trans h h2⟩

instance : IsTotal AsrRow (fun a b => a.start_time ≤ b.start_time) :=
  ⟨fun _ _ => le_total _ _⟩

instance : IsTrans AsrRow (fun a b => a.start_time ≤ b.start_time) :=
  ⟨fun _ _ _ h h2 => le_trans h h2⟩

/-! ### Helper lemmas on the string primitives -/

theorem dropWs_length_le (l : List Char) : (dropWs l).length ≤ l.length := by
  induction l with
  | nil => simp [dropWs]
  | cons c cs ih =>
    by_cases h : c.isWhitespace
    · simpa [dropWs, h] using le_trans ih (Nat.le_succ _)
    · simp [dropWs, h]

theorem dropWs_cons_of_not_ws {c : Char} {cs : List Char}
    (h : c.isWhitespace = false) : dropWs (c :: cs) = c :: cs := by
  simp [dropWs, h]

theorem dropWs_head_cases (l : List Char) :
    dropWs l = [] ∨
      ∃ c cs, dropWs l = c :: cs ∧ c.isWhitespace = false := by
  induction l with
  | nil => exact Or.inl rfl
  | cons c cs ih =>
    by_cases h : c.isWhitespace
    · simpa [dropWs, h] using ih
    · exact Or.inr ⟨c, cs, by simp [dropWs, h], by simp [h]⟩

theorem dropWs_idem (l : List Char) : dropWs (dropWs l) = dropWs l := by
  rcases dropWs_head_cases l with h | ⟨c, cs, h, hc⟩
  · simp [h, dropWs]
  · rw [h, dropWs_cons_of_not_ws hc]

theorem dropWs_suffix (l : List Char) : dropWs l <:+ l := by
  induction l with
  | nil => simp [dropWs]
  | cons c cs ih =>
    by_cases h : c.isWhitespace
    · simpa [dropWs, h] using ih.trans (List.suffix_cons c cs)
    · simp [dropWs, h]

theorem dropWs_eq_self_head (l : List Char) (h : dropWs l = l) :
    l = [] ∨ ∃ c cs, l = c :: cs ∧ c.isWhitespace = false := by
  rcases dropWs_head_cases l with h0 | ⟨c, cs, h0, hc⟩
  · exact Or.inl (h ▸ h0)
  · exact Or.inr ⟨c, cs, h ▸ h0, hc⟩

theorem dropWs_reverse_of_clean (a : List Char) (ha : dropWs a = a) :
    dropWs ((dropWs a.reverse).reverse) = (dropWs a.reverse).reverse := by
  rcases hxr : (dropWs a.reverse).reverse with _ | ⟨d, ds⟩
  · simp [dropWs]
  · rcases dropWs_eq_self_head a ha with h0 | ⟨c, cs, h1, hc⟩
    · rw [h0] at hxr
      simp [dropWs] at hxr
    · have hxne : dropWs a.reverse ≠ [] := by
        intro h0
        rw [h0] at hxr
        simp at hxr
      have hlast : (dropWs a.reverse).getLast? = a.reverse.getLast? := by
        obtain ⟨t, ht⟩ := dropWs_suffix a.reverse
        conv_rhs => rw [← ht]
        rw [List.getLast?_append_of_ne_nil _ hxne]
      have hlast2 : (dropWs a.reverse).getLast? = some c := by
        rw [hlast, List.getLast?_reverse, h1]
        rfl
      have hhead : ((dropWs a.reverse).reverse).head? = some c := by
        rw [List.head?_reverse]
        exact hlast2
      rw [hxr] at hhead
      simp at hhead
      exact dropWs_cons_of_not_ws (by simp [hhead, hc])

theorem pyStrip_idem (s : String) : pyStrip (pyStrip s) = pyStrip s := by
  show (⟨(dropWs (dropWs ((dropWs (dropWs s.data).reverse).reverse)).reverse).reverse⟩ : String) = _
  rw [dropWs_reverse_of_clean (dropWs s.data) (dropWs_idem s.data),
    List.reverse_reverse, dropWs_idem]
  rfl

/-! ### Helper lemmas: recognition stage -/

theorem processSegment_fst_success (fs : List String) (seg : ExtractedSegment)
    (raw : String) :
    (processSegment fs seg (AsrOutcome.success raw)).1 =
      if pyStrip raw ≠ "" ∧ pyStrip raw ∉ ["", ".", "..."] then
        some ⟨seg.speaker, seg.start_time, seg.end_time, seg.duration,
          pyStrip raw, (pySplit (pyStrip raw)).length⟩
      else none := rfl

theorem processSegment_fst_error (fs : List String) (seg : ExtractedSegment)
    (o : AsrOutcome) (h : ∀ raw, o ≠ AsrOutcome.success raw) :
    (processSegment fs seg o).1 = none := by
  cases o with
  | success raw => exact absurd rfl (h raw)
  | exportError created => cases created <;> rfl
  | asrError => rfl

theorem processSegment_snd (fs : List String) (seg : ExtractedSegment)
    (o : AsrOutcome) :
    (processSegment fs seg o).2 =
      fs.filter (fun f => f ≠ tempFileName seg) := by
  cases o with
  | success raw => simp [processSegment, List.filter_cons]
  | exportError created => cases created <;> simp [processSegment, List.filter_cons]
  | asrError => simp [processSegment, List.filter_cons]

theorem tempFileName_not_mem_processSegment_snd (fs : List String)
    (seg : ExtractedSegment) (o : AsrOutcome) :
    tempFileName seg ∉ (processSegment fs seg o).2 := by
  rw [processSegment_snd]
  intro h
  have := (List.mem_filter.mp h).2
  simp at this

theorem processSegment_fst_some {fs : List String} {seg : ExtractedSegment}
    {o : AsrOutcome} {r : AsrRow}
    (h : (processSegment fs seg o).1 = some r) :
    r.text ≠ "" ∧ r.text ≠ "." ∧ r.text ≠ "..." ∧ pyStrip r.text = r.text ∧
      r.word_count = (pySplit r.text).length := by
  cases o with
  | success raw =>
    rw [processSegment_fst_success] at h
    split at h
    · rename_i hcond
      obtain ⟨h1, h2⟩ := hcond
      cases h
      refine ⟨h1, ?_, ?_, pyStrip_idem raw, rfl⟩
      · show pyStrip raw ≠ "."
        intro h0
        exact h2 (by rw [h0]; simp)
      · show pyStrip raw ≠ "..."
        intro h0
        exact h2 (by rw [h0]; simp)
    · cases h
  | exportError created =>
    rw [processSegment_fst_error fs seg _ (by intro raw h0; cases h0)] at h
    cases h
  | asrError =>
    rw [processSegment_fst_error fs seg _ (by intro raw h0; cases h0)] at h
    cases h

theorem transcribeLoop_mem_fst {outcomes : ℕ → AsrOutcome}
    {segs : List ExtractedSegment} {fs : List String} {r : AsrRow}
    (h : r ∈ (transcribeLoop outcomes segs fs).1) :
    ∃ fs' seg, (processSegment fs' seg (outcomes seg.segment_index)).1 = some r := by
  induction segs generalizing fs with
  | nil => simp [transcribeLoop] at h
  | cons seg rest ih =>
    simp only [transcribeLoop, List.mem_append] at h
    rcases h with h | h
    · exact ⟨fs, seg, by simpa using h⟩
    · exact ih h

theorem transcribeLoop_snd_subset (outcomes : ℕ → AsrOutcome)
    (segs : List ExtractedSegment) :
    ∀ fs, (transcribeLoop outcomes segs fs).2 ⊆ fs := by
  induction segs with
  | nil => intro fs; simp [transcribeLoop]
  | cons seg rest ih =>
    intro fs
    refine (ih _).trans ?_
    rw [processSegment_snd]
    exact List.filter_subset' _

theorem transcribeLoop_temp_cleanup (outcomes : ℕ → AsrOutcome)
    (segs : List ExtractedSegment) (fs : List String) :
    ∀ seg ∈ segs, tempFileName seg ∉ (transcribeLoop outcomes segs fs).2 := by
  induction segs generalizing fs with
  | nil => simp
  | cons s0 rest ih =>
    intro seg hmem
    rcases List.mem_cons.mp hmem with rfl | hmem
    · intro hcontra
      have hsub := transcribeLoop_snd_subset outcomes rest
        ((processSegment fs seg (outcomes seg.segment_index)).2)
      have : tempFileName seg ∈ (processSegment fs seg (outcomes seg.segment_index)).2 := by
        have h2 := hsub hcontra
        exact h2
      exact tempFileName_not_mem_processSegment_snd fs seg _ this
    · exact ih _ seg hmem

theorem mem_sortAsrByStart {l : List AsrRow} {r : AsrRow} :
    r ∈ sortAsrByStart l ↔ r ∈ l :=
  (List.perm_insertionSort _ l).mem_iff

theorem perform_speech_recognition_mem {diarRows : List DiarSegment}
    {outcomes : ℕ → AsrOutcome} {path : String} {r : AsrRow}
    (h : r ∈ (perform_speech_recognition diarRows outcomes path).1) :
    r ∈ transcribe_audio_segments (extract_audio_segments diarRows) outcomes := by
  by_cases he :
      (transcribe_audio_segments (extract_audio_segments diarRows) outcomes).isEmpty
  · simp [perform_speech_recognition, he] at h
  · simp only [perform_speech_recognition, he, if_neg, Bool.false_eq_true,
      not_false_eq_true, if_false] at h
    exact mem_sortAsrByStart.mp h

/-! ### Helper lemmas: diarization stage -/

theorem mem_diarSegments {turns : List RawTurn} {s : DiarSegment}
    (h : s ∈ diarSegments turns) :
    MIN_SEGMENT_DURATION ≤ s.duration ∧ s.duration = s.end_time - s.start_time := by
  obtain ⟨t, ht, rfl⟩ := List.mem_map.mp h
  have hf := (List.mem_filter.mp ht).2
  simp only [Bool.not_eq_eq_eq_not, Bool.not_true, decide_eq_false_iff_not,
    not_lt] at hf
  exact ⟨hf, rfl⟩

theorem perform_diarization_mem {turns : List RawTurn} {path : String}
    {s : DiarSegment} (h : s ∈ (perform_diarization turns path).1) :
    s ∈ diarSegments turns := by
  by_cases he : (diarSegments turns).isEmpty
  · simp [perform_diarization, he] at h
  · simp only [perform_diarization, he, Bool.false_eq_true, if_false] at h
    exact (List.perm_insertionSort _ _).mem_iff.mp h

/-- C7: every segment retained by the diarization stage satisfies
`end_time > start_time`, `duration = end_time - start_time` and
`duration ≥ MIN_SEGMENT_DURATION`; a turn below the threshold yields no
segment with its endpoints; and the output table is sorted ascending by
`start_time`. -/
theorem diarization_segments_valid (turns : List RawTurn) (path : String) :
    (∀ s ∈ (perform_diarization turns path).1,
        s.start_time < s.end_time ∧
        s.duration = s.end_time - s.start_time ∧
        MIN_SEGMENT_DURATION ≤ s.duration) ∧
    List.Sorted (fun a b : DiarSegment => a.start_time ≤ b.start_time)
      (perform_diarization turns path).1 ∧
    (∀ t ∈ turns, t.turnEnd - t.turnStart < MIN_SEGMENT_DURATION →
      ∀ s ∈ (perform_diarization turns path).1,
        ¬(s.start_time = t.turnStart ∧ s.end_time = t.turnEnd)) := by
  refine ⟨?_, ?_, ?_⟩
  · intro s hs
    obtain ⟨hmin, hdur⟩ := mem_diarSegments (perform_diarization_mem hs)
    refine ⟨?_, hdur, hmin⟩
    have h0 : (0 : ℚ) < s.end_time - s.start_time := by
      rw [← hdur]
      exact lt_of_lt_of_le (by norm_num [MIN_SEGMENT_DURATION]) hmin
    linarith
  · by_cases he : (diarSegments turns).isEmpty
    · simp [perform_diarization, he]
    · simp only [perform_diarization, he, Bool.false_eq_true, if_false]
      exact List.sorted_insertionSort _ _
  · intro t _ hshort s hs hcontra
    obtain ⟨hmin, hdur⟩ := mem_diarSegments (perform_diarization_mem hs)
    rw [hdur, hcontra.1, hcontra.2] at hmin
    exact absurd (lt_of_le_of_lt hmin hshort) (lt_irrefl _)

/-- Concrete witness for C7: a 1-second turn is kept with valid fields
and sortedness holds, while a quarter-second turn is excluded. -/
theorem diarization_segments_valid_witness :
    ((⟨"A", 0, 1, 1⟩ : DiarSegment) ∈
        (perform_diarization [⟨0, 1, "A"⟩, ⟨2, 9/4, "B"⟩] "d.csv").1 ∧
      (0 : ℚ) < 1 ∧ (1 : ℚ) = 1 - 0 ∧ MIN_SEGMENT_DURATION ≤ (1 : ℚ)) ∧
    ((⟨2, 9/4, "B"⟩ : RawTurn) ∈ ([⟨0, 1, "A"⟩, ⟨2, 9/4, "B"⟩] : List RawTurn) ∧
      (9/4 : ℚ) - 2 < MIN_SEGMENT_DURATION ∧
      ¬((⟨"A", 0, 1, 1⟩ : DiarSegment).start_time = (2 : ℚ) ∧
        (⟨"A", 0, 1, 1⟩ : DiarSegment).end_time = (9/4 : ℚ))) := by
  have hmem : (⟨"A", 0, 1, 1⟩ : DiarSegment) ∈
      (perform_diarization [⟨0, 1, "A"⟩, ⟨2, 9/4, "B"⟩] "d.csv").1 := by
    norm_num [perform_diarization, diarSegments, MIN_SEGMENT_DURATION,
      sortDiarByStart, List.insertionSort, List.orderedInsert,
      List.filter_cons, List.filter_nil]
  have hshort : (9/4 : ℚ) - 2 < MIN_SEGMENT_DURATION := by
    norm_num [MIN_SEGMENT_DURATION]
  have hprops := (diarization_segments_valid [⟨0, 1, "A"⟩, ⟨2, 9/4, "B"⟩]
    "d.csv").1 _ hmem
  have hexcl := (diarization_segments_valid [⟨0, 1, "A"⟩, ⟨2, 9/4, "B"⟩]
    "d.csv").2.2 ⟨2, 9/4, "B"⟩ (by simp) hshort _ hmem
  refine ⟨⟨hmem, hprops.1, ?_, ?_⟩, ⟨by simp, hshort, hexcl⟩⟩
  · simp only [] at hprops
    exact hprops.2.1
  · exact hprops.2.2

/-- C6: no recognition output row has a (trimmed) text that is empty or
a placeholder "." / "..."; each row's `word_count` is the number of
whitespace-separated words of its text; and the output table is sorted
ascending by `start_time`. -/
theorem asr_output_clean_and_sorted (diarRows : List DiarSegment)
    (outcomes : ℕ → AsrOutcome) (path : String) :
    (∀ r ∈ (perform_speech_recognition diarRows outcomes path).1,
        r.text ≠ "" ∧ r.text ≠ "." ∧ r.text ≠ "..." ∧
        pyStrip r.text = r.text ∧
        r.word_count = (pySplit r.text).length) ∧
    List.Sorted (fun a b : AsrRow => a.start_time ≤ b.start_time)
      (perform_speech_recognition diarRows outcomes path).1 := by
  constructor
  · intro r hr
    obtain ⟨fs', seg, h⟩ := transcribeLoop_mem_fst
      (perform_speech_recognition_mem hr)
    exact processSegment_fst_some h
  · by_cases he : (transcribe_audio_segments
        (extract_audio_segments diarRows) outcomes).isEmpty
    · simp [perform_speech_recognition, he]
    · simp only [perform_speech_recognition, he, Bool.false_eq_true, if_false]
      exact List.sorted_insertionSort _ _

/-- Concrete witness for C6: a one-segment run whose raw transcription
carries surrounding whitespace. -/
theorem asr_output_clean_and_sorted_witness :
    ((⟨"A", 0, 1, 1, "hello world", 2⟩ : AsrRow) ∈
      (perform_speech_recognition [⟨"A", 0, 1, 1⟩]
        (fun _ => AsrOutcome.success " hello world ") "a.csv").1) ∧
    ("hello world" ≠ "" ∧ "hello world" ≠ "." ∧ "hello world" ≠ "..." ∧
      pyStrip "hello world" = "hello world" ∧
      2 = (pySplit "hello world").length) := by
  have hmem : (⟨"A", 0, 1, 1, "hello world", 2⟩ : AsrRow) ∈
      (perform_speech_recognition [⟨"A", 0, 1, 1⟩]
        (fun _ => AsrOutcome.success " hello world ") "a.csv").1 := by
    decide
  exact ⟨hmem, (asr_output_clean_and_sorted [⟨"A", 0, 1, 1⟩]
    (fun _ => AsrOutcome.success " hello world ") "a.csv").1 _ hmem⟩

theorem extractLoop_length (rows : List DiarSegment) :
    ∀ i, (extractLoop i rows).length = rows.length := by
  induction rows with
  | nil => intro i; rfl
  | cons r rs ih => intro i; simp [extractLoop, ih]

theorem extract_audio_segments_length (rows : List DiarSegment) :
    (extract_audio_segments rows).length = rows.length :=
  extractLoop_length rows 0

/-- C9: the temporary per-segment audio file does not exist once the
segment's attempt completes, whether the export/transcription succeeded
or raised; a raising attempt produces no row (the segment is skipped,
the exception does not escape the loop); and after the stage loop no
processed segment's temp file remains. -/
theorem transcription_temp_cleanup (outcomes : ℕ → AsrOutcome) :
    (∀ fs seg outcome,
        tempFileName seg ∉ (processSegment fs seg outcome).2) ∧
    (∀ fs seg outcome, (∀ raw, outcome ≠ AsrOutcome.success raw) →
        (processSegment fs seg outcome).1 = none) ∧
    (∀ segs fs, ∀ seg ∈ segs,
        tempFileName seg ∉ (transcribeLoop outcomes segs fs).2) := by
  refine ⟨?_, ?_, ?_⟩
  · intro fs seg o
    exact tempFileName_not_mem_processSegment_snd fs seg o
  · intro fs seg o h
    exact processSegment_fst_error fs seg o h
  · intro segs fs
    exact transcribeLoop_temp_cleanup outcomes segs fs

/-- Concrete witness for C9: a failing ASR call on a pre-existing temp
file still removes it and yields no row. -/
theorem transcription_temp_cleanup_witness :
    (tempFileName ⟨"A", 0, 1, 1, 0, 1000, 0⟩ ∉
      (processSegment ["temp_A_0.wav", "keep.txt"] ⟨"A", 0, 1, 1, 0, 1000, 0⟩
        AsrOutcome.asrError).2) ∧
    ((processSegment ["temp_A_0.wav", "keep.txt"] ⟨"A", 0, 1, 1, 0, 1000, 0⟩
        AsrOutcome.asrError).1 = none) ∧
    ((⟨"A", 0, 1, 1, 0, 1000, 0⟩ : ExtractedSegment) ∈
        ([⟨"A", 0, 1, 1, 0, 1000, 0⟩] : List ExtractedSegment) ∧
      tempFileName ⟨"A", 0, 1, 1, 0, 1000, 0⟩ ∉
        (transcribeLoop (fun _ => AsrOutcome.asrError)
          [⟨"A", 0, 1, 1, 0, 1000, 0⟩] ["temp_A_0.wav", "keep.txt"]).2) := by
  have h := transcription_temp_cleanup (fun _ => AsrOutcome.asrError)
  exact ⟨h.1 _ _ _, h.2.1 _ _ _ (by intro raw hh; cases hh),
    List.mem_singleton.mpr rfl, h.2.2 _ _ _ (List.mem_singleton.mpr rfl)⟩

/-- C10: whenever the recognition stage emits at least one row, its
reported success_rate is the number of surviving rows divided by the
number of input diarization segments. -/
theorem asr_success_rate_ratio (diarRows : List DiarSegment)
    (outcomes : ℕ → AsrOutcome) (path : String)
    (h : (perform_speech_recognition diarRows outcomes path).1 ≠ []) :
    ∃ w c, (perform_speech_recognition diarRows outcomes path).2.1 =
      AsrMetrics.stats diarRows.length
        (perform_speech_recognition diarRows outcomes path).1.length
        (((perform_speech_recognition diarRows outcomes path).1.length : ℚ) /
          (diarRows.length : ℚ)) w c := by
  by_cases he : (transcribe_audio_segments
      (extract_audio_segments diarRows) outcomes).isEmpty
  · simp [perform_speech_recognition, he] at h
  · have hpos : 0 < (extract_audio_segments diarRows).length := by
      cases hx : extract_audio_segments diarRows with
      | nil =>
        exact absurd (by rw [hx]; rfl :
          (transcribe_audio_segments (extract_audio_segments diarRows)
            outcomes).isEmpty = true) he
      | cons a l => simp [hx]
    simp only [perform_speech_recognition, he, Bool.false_eq_true, if_false]
    rw [extract_audio_segments_length] at hpos
    rw [extract_audio_segments_length, if_pos hpos]
    exact ⟨_, _, rfl⟩

/-- Concrete witness for C10: a one-segment run with one surviving row. -/
theorem asr_success_rate_ratio_witness :
    (perform_speech_recognition [⟨"A", 0, 1, 1⟩]
      (fun _ => AsrOutcome.success "hi") "a.csv").1 ≠ [] ∧
    ∃ w c, (perform_speech_recognition [⟨"A", 0, 1, 1⟩]
        (fun _ => AsrOutcome.success "hi") "a.csv").2.1 =
      AsrMetrics.stats ([⟨"A", 0, 1, 1⟩] : List DiarSegment).length
        (perform_speech_recognition [⟨"A", 0, 1, 1⟩]
          (fun _ => AsrOutcome.success "hi") "a.csv").1.length
        (((perform_speech_recognition [⟨"A", 0, 1, 1⟩]
            (fun _ => AsrOutcome.success "hi") "a.csv").1.length : ℚ) /
          (([⟨"A", 0, 1, 1⟩] : List DiarSegment).length : ℚ)) w c := by
  have hne : (perform_speech_recognition [⟨"A", 0, 1, 1⟩]
      (fun _ => AsrOutcome.success "hi") "a.csv").1 ≠ [] := by decide
  exact ⟨hne, asr_success_rate_ratio _ _ _ hne⟩

/-! ### Helper lemmas: correction stage -/

theorem correct_text_snd (t : String) (o : Option String) :
    (correct_text t o).2 = o.isSome := by
  cases o <;> rfl

theorem correctionLoop_length (oracle : ℕ → Option String)
    (rows : List AsrRow) :
    ∀ i, (correctionLoop oracle i rows).length = rows.length := by
  induction rows with
  | nil => intro i; rfl
  | cons r rs ih => intro i; simp [correctionLoop, ih]

theorem correctionLoop_getElem? (oracle : ℕ → Option String)
    (rows : List AsrRow) :
    ∀ i k, (correctionLoop oracle i rows)[k]? =
      (rows[k]?).map (fun r =>
        (⟨r.speaker, r.start_time, r.end_time, r.duration, r.text, r.word_count,
          (correct_text r.text (oracle (i + k))).1⟩ : CorrRow)) := by
  induction rows with
  | nil => intro i k; simp [correctionLoop]
  | cons r rs ih =>
    intro i k
    cases k with
    | zero => simp [correctionLoop]
    | succ k =>
      simp only [correctionLoop, List.getElem?_cons_succ]
      rw [ih (i + 1) k]
      have h : (i + 1) + k = i + (k + 1) := by omega
      rw [h]

theorem correctionSuccesses_eq (oracle : ℕ → Option String)
    (rows : List AsrRow) :
    ∀ i, correctionSuccesses oracle i rows =
      (List.range rows.length).countP (fun k => (oracle (i + k)).isSome) := by
  induction rows with
  | nil => intro i; simp [correctionSuccesses]
  | cons r rs ih =>
    intro i
    have hmap : ((List.range rs.length).map Nat.succ).countP
        (fun k => (oracle (i + k)).isSome) =
        (List.range rs.length).countP (fun k => (oracle ((i + 1) + k)).isSome) := by
      rw [List.countP_map]
      apply List.countP_congr
      intro k _
      have h : i + Nat.succ k = (i + 1) + k := by omega
      simp only [Function.comp_apply, h]
    rw [correctionSuccesses, correct_text_snd, ih (i + 1), List.length_cons,
      List.range_succ_eq_map, List.countP_cons, hmap, Nat.add_zero]
    exact Nat.add_comm _ _

/-- C2: the correction stage emits exactly one output row per input row;
a row whose correction call raises keeps its original text as
`corrected_text`; `successful_corrections` counts the rows whose call
succeeded and `success_rate` is successes over total rows (0 when there
are no rows). -/
theorem correction_row_preserving (rows : List AsrRow)
    (oracle : ℕ → Option String) (path : String) :
    (test_correction rows oracle path).1.length = rows.length ∧
    (∀ i, i < rows.length → oracle i = none →
      ((test_correction rows oracle path).1[i]?).map (fun r => r.corrected_text) =
        (rows[i]?).map (fun r => r.text)) ∧
    (test_correction rows oracle path).2.1.successful_corrections =
      (List.range rows.length).countP (fun k => (oracle k).isSome) ∧
    (test_correction rows oracle path).2.1.success_rate =
      (if 0 < rows.length then
        ((test_correction rows oracle path).2.1.successful_corrections : ℚ) /
          (rows.length : ℚ)
      else 0) := by
  refine ⟨correctionLoop_length oracle rows 0, ?_, ?_, rfl⟩
  · intro i hi hnone
    show ((correctionLoop oracle 0 rows)[i]?).map _ = _
    rw [correctionLoop_getElem? oracle rows 0 i]
    cases hr : rows[i]? with
    | none => rfl
    | some r => simp [Nat.zero_add, hnone, correct_text]
  · show correctionSuccesses oracle 0 rows = _
    rw [correctionSuccesses_eq oracle rows 0]
    simp only [Nat.zero_add]

/-- Concrete witness for C2: the single-row input whose correction call
fails keeps its text and reports success_rate 0. -/
theorem correction_row_preserving_witness :
    (0 < 1 ∧ ((fun _ => none) : ℕ → Option String) 0 = none) ∧
    (test_correction [⟨"A", 0, 1, 1, "helo wrld", 2⟩]
      (fun _ => none) "c.csv").1.length = 1 ∧
    ((test_correction [⟨"A", 0, 1, 1, "helo wrld", 2⟩]
        (fun _ => none) "c.csv").1[0]?).map (fun r => r.corrected_text) =
      some "helo wrld" ∧
    (test_correction [⟨"A", 0, 1, 1, "helo wrld", 2⟩]
      (fun _ => none) "c.csv").2.1.success_rate = 0 := by
  have h := correction_row_preserving [⟨"A", 0, 1, 1, "helo wrld", 2⟩]
    (fun _ => none) "c.csv"
  refine ⟨⟨Nat.one_pos, rfl⟩, h.1, ?_, ?_⟩
  · have h2 := h.2.1 0 Nat.one_pos rfl
    simpa using h2
  · have hs : (test_correction [⟨"A", 0, 1, 1, "helo wrld", 2⟩]
        (fun _ => none) "c.csv").2.1.successful_corrections = 0 := by
      rw [h.2.2.1]
      decide
    rw [h.2.2.2, hs]
    norm_num

/-! ### Helper lemmas: summarization stage -/

theorem sorted_distinct_speakers_nodup (rows : List CorrRow) :
    (sorted_distinct_speakers rows).Nodup :=
  ((List.perm_insertionSort _ _).nodup_iff).mpr (List.nodup_dedup _)

theorem mem_sorted_distinct_speakers {rows : List CorrRow} {s : String} :
    s ∈ sorted_distinct_speakers rows ↔ s ∈ rows.map (fun r => r.speaker) := by
  rw [sorted_distinct_speakers, (List.perm_insertionSort _ _).mem_iff,
    List.mem_dedup]

theorem test_summarization_fst (rows : List CorrRow)
    (oracle : String → Option String) (path : String) :
    (test_summarization rows oracle path).1 =
      (speaker_texts rows).map (fun p => (summarize_speaker oracle p.1 p.2).2.1) := by
  show ((speaker_texts rows).map _).map _ = _
  rw [List.map_map]
  rfl

theorem summarize_speaker_processed (oracle : String → Option String)
    (spk original_text : String) :
    (summarize_speaker oracle spk original_text).1 =
      truncate_for_summary original_text := rfl

theorem pyTake_length (s : String) (n : ℕ) :
    (pyTake s n).length = min n s.length := by
  show (s.data.take n).length = _
  rw [List.length_take]
  rfl

/-- C3: the summarization stage produces exactly one output row per
distinct speaker of its input; each speaker's aggregated text is that
speaker's `corrected_text` values in input row order joined by a single
space; and the speaker rows come out in a deterministic (sorted) order
with no duplicates. -/
theorem summarization_grouping (rows : List CorrRow)
    (oracle : String → Option String) (path : String) :
    ((test_summarization rows oracle path).1.map (fun r => r.speaker) =
      (speaker_texts rows).map (fun p => p.1)) ∧
    ((speaker_texts rows).map (fun p => p.1)).Nodup ∧
    List.Sorted (fun a b : String => a ≤ b)
      ((speaker_texts rows).map (fun p => p.1)) ∧
    (∀ s, s ∈ (speaker_texts rows).map (fun p => p.1) ↔
      s ∈ rows.map (fun r => r.speaker)) ∧
    (∀ p ∈ speaker_texts rows,
      p.2 = String.intercalate " "
        ((rows.filter (fun r => r.speaker = p.1)).map
          (fun r => r.corrected_text))) := by
  have hfst : (speaker_texts rows).map (fun p => p.1) =
      sorted_distinct_speakers rows := by
    rw [speaker_texts, List.map_map]
    exact List.map_id _
  refine ⟨?_, ?_, ?_, ?_, ?_⟩
  · rw [test_summarization_fst, List.map_map]
    rfl
  · rw [hfst]
    exact sorted_distinct_speakers_nodup rows
  · rw [hfst]
    exact List.sorted_insertionSort _ _
  · intro s
    rw [hfst]
    exact mem_sorted_distinct_speakers
  · intro p hp
    obtain ⟨s, _, rfl⟩ := List.mem_map.mp hp
    rfl

/-- Concrete witness for C3: two rows of speaker "A" with corrected
texts "Hi." and "there." aggregate to "Hi. there.". -/
theorem summarization_grouping_witness :
    speaker_texts [⟨"A", 0, 1, 1, "x", 1, "Hi."⟩,
        ⟨"A", 1, 2, 1, "y", 1, "there."⟩] = [("A", "Hi. there.")] ∧
    (("A", "Hi. there.") ∈ speaker_texts [⟨"A", 0, 1, 1, "x", 1, "Hi."⟩,
        ⟨"A", 1, 2, 1, "y", 1, "there."⟩] ∧
      "Hi. there." = String.intercalate " "
        ((([⟨"A", 0, 1, 1, "x", 1, "Hi."⟩, ⟨"A", 1, 2, 1, "y", 1, "there."⟩] :
            List CorrRow).filter (fun r => r.speaker = "A")).map
          (fun r => r.corrected_text))) ∧
    ((test_summarization [⟨"A", 0, 1, 1, "x", 1, "Hi."⟩,
        ⟨"A", 1, 2, 1, "y", 1, "there."⟩] (fun _ => some "ok") "s.csv").1.map
      (fun r => r.speaker) =
      (speaker_texts [⟨"A", 0, 1, 1, "x", 1, "Hi."⟩,
        ⟨"A", 1, 2, 1, "y", 1, "there."⟩]).map (fun p => p.1)) := by
  have h := summarization_grouping [⟨"A", 0, 1, 1, "x", 1, "Hi."⟩,
    ⟨"A", 1, 2, 1, "y", 1, "there."⟩] (fun _ => some "ok") "s.csv"
  have hst : speaker_texts [⟨"A", 0, 1, 1, "x", 1, "Hi."⟩,
      ⟨"A", 1, 2, 1, "y", 1, "there."⟩] = [("A", "Hi. there.")] := by decide
  have hmem : ("A", "Hi. there.") ∈ speaker_texts
      [⟨"A", 0, 1, 1, "x", 1, "Hi."⟩, ⟨"A", 1, 2, 1, "y", 1, "there."⟩] := by
    rw [hst]
    exact List.mem_singleton.mpr rfl
  exact ⟨hst, ⟨hmem, h.2.2.2.2 ("A", "Hi. there.") hmem⟩, h.1⟩

/-- C4: every summarization output row has
`compression_ratio = summary_length / original_text_length` (0 when the
original length is 0), where `original_text_length` is the length of the
full untruncated concatenated text of that row's speaker. -/
theorem summarization_compression_ratio (rows : List CorrRow)
    (oracle : String → Option String) (path : String) :
    ∀ r ∈ (test_summarization rows oracle path).1,
      r.original_text_length = (speaker_joined_text rows r.speaker).length ∧
      r.compression_ratio =
        (if 0 < r.original_text_length then
          (r.summary_length : ℚ) / (r.original_text_length : ℚ)
        else 0) := by
  intro r hr
  rw [test_summarization_fst] at hr
  obtain ⟨p, hp, rfl⟩ := List.mem_map.mp hr
  obtain ⟨s, _, rfl⟩ := List.mem_map.mp hp
  exact ⟨rfl, rfl⟩

/-- Concrete witness for C4 on a one-speaker table. -/
theorem summarization_compression_ratio_witness :
    ((summarize_speaker (fun _ => some "ok") "B" "corr").2.1 ∈
      (test_summarization [⟨"B", 0, 1, 1, "t", 1, "corr"⟩]
        (fun _ => some "ok") "s.csv").1) ∧
    (summarize_speaker (fun _ => some "ok") "B" "corr").2.1.original_text_length =
      (speaker_joined_text [⟨"B", 0, 1, 1, "t", 1, "corr"⟩]
        (summarize_speaker (fun _ => some "ok") "B" "corr").2.1.speaker).length ∧
    (summarize_speaker (fun _ => some "ok") "B" "corr").2.1.compression_ratio =
      (if 0 < (summarize_speaker (fun _ => some "ok") "B"
          "corr").2.1.original_text_length then
        ((summarize_speaker (fun _ => some "ok") "B" "corr").2.1.summary_length : ℚ) /
          ((summarize_speaker (fun _ => some "ok") "B"
            "corr").2.1.original_text_length : ℚ)
      else 0) := by
  have hst : speaker_texts [⟨"B", 0, 1, 1, "t", 1, "corr"⟩] = [("B", "corr")] := by
    decide
  have hmem : (summarize_speaker (fun _ => some "ok") "B" "corr").2.1 ∈
      (test_summarization [⟨"B", 0, 1, 1, "t", 1, "corr"⟩]
        (fun _ => some "ok") "s.csv").1 := by
    rw [test_summarization_fst, hst]
    exact List.mem_singleton.mpr rfl
  have h := summarization_compression_ratio [⟨"B", 0, 1, 1, "t", 1, "corr"⟩]
    (fun _ => some "ok") "s.csv" _ hmem
  exact ⟨hmem, h.1, h.2⟩

/-- C5: a speaker's concatenated text longer than
`MAX_SUMMARY_INPUT_LENGTH` is passed to the summarization call as its
first `MAX_SUMMARY_INPUT_LENGTH` characters followed by an ellipsis; a
text of at most that length is passed unchanged; either way the passed
text is at most `MAX_SUMMARY_INPUT_LENGTH + 3` characters long. -/
theorem summarization_truncation (rows : List CorrRow)
    (oracle : String → Option String) (path : String) :
    ((test_summarization rows oracle path).1 =
      (speaker_texts rows).map
        (fun p => (summarize_speaker oracle p.1 p.2).2.1)) ∧
    (∀ p ∈ speaker_texts rows,
      (MAX_SUMMARY_INPUT_LENGTH < p.2.length →
        (summarize_speaker oracle p.1 p.2).1 =
          pyTake p.2 MAX_SUMMARY_INPUT_LENGTH ++ "...") ∧
      (p.2.length ≤ MAX_SUMMARY_INPUT_LENGTH →
        (summarize_speaker oracle p.1 p.2).1 = p.2) ∧
      (summarize_speaker oracle p.1 p.2).1.length ≤
        MAX_SUMMARY_INPUT_LENGTH + 3) := by
  refine ⟨test_summarization_fst rows oracle path, ?_⟩
  intro p _
  rw [summarize_speaker_processed]
  refine ⟨?_, ?_, ?_⟩
  · intro h
    rw [truncate_for_summary, if_pos h]
  · intro h
    rw [truncate_for_summary, if_neg (not_lt.mpr h)]
  · rw [truncate_for_summary]
    by_cases h : MAX_SUMMARY_INPUT_LENGTH < p.2.length
    · rw [if_pos h, String.length_append, pyTake_length]
      have h3 : ("..." : String).length = 3 := rfl
      rw [h3]
      omega
    · rw [if_neg h]
      omega

/-- Concrete witness for C5: a 2001-character speaker text is truncated,
a 2-character one passes unchanged. -/
theorem summarization_truncation_witness :
    (("L", repeatChar 'a' 2001) ∈ speaker_texts
        [⟨"L", 0, 1, 1, "t", 1, repeatChar 'a' 2001⟩] ∧
      MAX_SUMMARY_INPUT_LENGTH < (repeatChar 'a' 2001).length ∧
      (summarize_speaker (fun _ => some "ok") "L" (repeatChar 'a' 2001)).1 =
        pyTake (repeatChar 'a' 2001) MAX_SUMMARY_INPUT_LENGTH ++ "..." ∧
      (summarize_speaker (fun _ => some "ok") "L"
        (repeatChar 'a' 2001)).1.length ≤ MAX_SUMMARY_INPUT_LENGTH + 3) ∧
    (("S", "hi") ∈ speaker_texts [⟨"S", 1, 2, 1, "u", 1, "hi"⟩] ∧
      ("hi" : String).length ≤ MAX_SUMMARY_INPUT_LENGTH ∧
      (summarize_speaker (fun _ => some "ok") "S" "hi").1 = "hi") := by
  have hstL : speaker_texts [⟨"L", 0, 1, 1, "t", 1, repeatChar 'a' 2001⟩] =
      [("L", repeatChar 'a' 2001)] := rfl
  have hstS : speaker_texts [⟨"S", 1, 2, 1, "u", 1, "hi"⟩] = [("S", "hi")] := rfl
  have hmemL : ("L", repeatChar 'a' 2001) ∈ speaker_texts
      [⟨"L", 0, 1, 1, "t", 1, repeatChar 'a' 2001⟩] := by
    rw [hstL]
    exact List.mem_singleton.mpr rfl
  have hmemS : ("S", "hi") ∈ speaker_texts [⟨"S", 1, 2, 1, "u", 1, "hi"⟩] := by
    rw [hstS]
    exact List.mem_singleton.mpr rfl
  have hlenL : (repeatChar 'a' 2001).length = 2001 := by
    show (⟨List.replicate 2001 'a'⟩ : String).length = 2001
    rw [String.length_mk, List.length_replicate]
  have hlong : MAX_SUMMARY_INPUT_LENGTH < (repeatChar 'a' 2001).length := by
    rw [hlenL]
    norm_num [MAX_SUMMARY_INPUT_LENGTH]
  have hshort : ("hi" : String).length ≤ MAX_SUMMARY_INPUT_LENGTH := by
    norm_num [MAX_SUMMARY_INPUT_LENGTH,
      show ("hi" : String).length = 2 from rfl]
  have hL := (summarization_truncation
    [⟨"L", 0, 1, 1, "t", 1, repeatChar 'a' 2001⟩]
    (fun _ => some "ok") "s.csv").2 _ hmemL
  have hS := (summarization_truncation [⟨"S", 1, 2, 1, "u", 1, "hi"⟩]
    (fun _ => some "ok") "s2.csv").2 _ hmemS
  exact ⟨⟨hmemL, hlong, hL.1 hlong, hL.2.2⟩, ⟨hmemS, hshort, hS.2.1 hshort⟩⟩

/-! ### Helper lemmas: audio extraction -/

theorem pyInt_intCast (n : ℤ) : pyInt (n : ℚ) = n := by
  rw [pyInt]
  split
  · exact Int.floor_intCast n
  · exact Int.ceil_intCast n

theorem extractLoop_getElem? (rows : List DiarSegment) :
    ∀ i k, (extractLoop i rows)[k]? =
      (rows[k]?).map (fun r =>
        (⟨r.speaker, r.start_time, r.end_time, r.duration,
          pyInt (r.start_time * 1000), pyInt (r.end_time * 1000), i + k⟩ :
          ExtractedSegment)) := by
  induction rows with
  | nil => intro i k; simp [extractLoop]
  | cons r rs ih =>
    intro i k
    cases k with
    | zero => simp [extractLoop]
    | succ k =>
      simp only [extractLoop, List.getElem?_cons_succ]
      rw [ih (i + 1) k]
      have h : (i + 1) + k = i + (k + 1) := by omega
      rw [h]

theorem mem_extractLoop {rows : List DiarSegment} {seg : ExtractedSegment} :
    ∀ {i}, seg ∈ extractLoop i rows →
      seg.startMs = pyInt (seg.start_time * 1000) ∧
      seg.endMs = pyInt (seg.end_time * 1000) := by
  induction rows with
  | nil => intro i h; simp [extractLoop] at h
  | cons r rs ih =>
    intro i h
    rcases List.mem_cons.mp h with rfl | h
    · exact ⟨rfl, rfl⟩
    · exact ih h

/-- C8 counterexample: on the diarization row with
`start_time = 1/2000 s` the extraction truncates the start bound to
0 ms, so the extracted range is not exactly `[start_time, end_time)`. -/
theorem extract_range_not_exact :
    ¬ extractsExactRange [⟨"S0", 1/2000, 1, 1 - 1/2000⟩] := by
  intro h
  have hmem : (⟨"S0", 1/2000, 1, 1 - 1/2000,
      pyInt ((1/2000 : ℚ) * 1000), pyInt ((1 : ℚ) * 1000), 0⟩ :
      ExtractedSegment) ∈
      extract_audio_segments [⟨"S0", 1/2000, 1, 1 - 1/2000⟩] :=
    List.mem_singleton.mpr rfl
  have h1 := (h _ hmem).1
  have h2 : pyInt ((1/2000 : ℚ) * 1000) = 0 := by
    rw [pyInt]
    norm_num
  rw [show (⟨"S0", 1/2000, 1, 1 - 1/2000, pyInt ((1/2000 : ℚ) * 1000),
      pyInt ((1 : ℚ) * 1000), 0⟩ : ExtractedSegment).startMs =
      pyInt ((1/2000 : ℚ) * 1000) from rfl, h2] at h1
  norm_num at h1

/-- C8 (amended): for each diarization row the recognition stage
extracts the millisecond range
`[int(start_time*1000), int(end_time*1000))`, i.e. `[start_time,
end_time)` truncated to whole milliseconds; a bound converts back
exactly whenever the corresponding time is an integer number of
milliseconds. -/
theorem extract_range_ms_truncated (rows : List DiarSegment) :
    (extract_audio_segments rows).length = rows.length ∧
    (∀ k, k < rows.length →
      (extract_audio_segments rows)[k]? = (rows[k]?).map (fun r =>
        (⟨r.speaker, r.start_time, r.end_time, r.duration,
          pyInt (r.start_time * 1000), pyInt (r.end_time * 1000), k⟩ :
          ExtractedSegment))) ∧
    (∀ seg ∈ extract_audio_segments rows,
      ((∃ n : ℤ, seg.start_time * 1000 = (n : ℚ)) →
        (seg.startMs : ℚ) / 1000 = seg.start_time) ∧
      ((∃ n : ℤ, seg.end_time * 1000 = (n : ℚ)) →
        (seg.endMs : ℚ) / 1000 = seg.end_time)) := by
  refine ⟨extract_audio_segments_length rows, ?_, ?_⟩
  · intro k _
    have h := extractLoop_getElem? rows 0 k
    simpa using h
  · intro seg hseg
    obtain ⟨h1, h2⟩ := mem_extractLoop hseg
    constructor
    · rintro ⟨n, hn⟩
      rw [h1, hn, pyInt_intCast, ← hn]
      field_simp
    · rintro ⟨n, hn⟩
      rw [h2, hn, pyInt_intCast, ← hn]
      field_simp

/-- Concrete witness for the amended C8: a [0 s, 1 s) row sits exactly
on millisecond boundaries, so its extracted range converts back. -/
theorem extract_range_ms_truncated_witness :
    (0 < ([⟨"A", 0, 1, 1⟩] : List DiarSegment).length ∧
      (extract_audio_segments [⟨"A", 0, 1, 1⟩])[0]? =
        (([⟨"A", 0, 1, 1⟩] : List DiarSegment)[0]?).map (fun r =>
          (⟨r.speaker, r.start_time, r.end_time, r.duration,
            pyInt (r.start_time * 1000), pyInt (r.end_time * 1000), 0⟩ :
            ExtractedSegment))) ∧
    ((⟨"A", 0, 1, 1, pyInt ((0 : ℚ) * 1000), pyInt ((1 : ℚ) * 1000), 0⟩ :
        ExtractedSegment) ∈ extract_audio_segments [⟨"A", 0, 1, 1⟩] ∧
      ((pyInt ((0 : ℚ) * 1000) : ℚ) / 1000 = (0 : ℚ)) ∧
      ((pyInt ((1 : ℚ) * 1000) : ℚ) / 1000 = (1 : ℚ))) := by
  have h := extract_range_ms_truncated [⟨"A", 0, 1, 1⟩]
  have hmem : (⟨"A", 0, 1, 1, pyInt ((0 : ℚ) * 1000), pyInt ((1 : ℚ) * 1000),
      0⟩ : ExtractedSegment) ∈ extract_audio_segments [⟨"A", 0, 1, 1⟩] :=
    List.mem_singleton.mpr rfl
  have h3 := h.2.2 _ hmem
  refine ⟨⟨Nat.one_pos, h.2.1 0 Nat.one_pos⟩, hmem, ?_, ?_⟩
  · exact h3.1 ⟨0, by show (0 : ℚ) * 1000 = ((0 : ℤ) : ℚ); norm_num⟩
  · exact h3.2 ⟨1000, by show (1 : ℚ) * 1000 = ((1000 : ℤ) : ℚ); norm_num⟩

/-! ### Helper lemmas: pipeline driver -/

theorem perform_diarization_cases (turns : List RawTurn) (path : String) :
    ((perform_diarization turns path).1 = [] ∧
      (perform_diarization turns path).2.2 = [] ∧
      (perform_diarization turns path).2.1 = DiarMetrics.noSegments) ∨
    ((perform_diarization turns path).1 ≠ [] ∧
      (perform_diarization turns path).2.2 = [path]) := by
  by_cases he : (diarSegments turns).isEmpty
  · left
    simp [perform_diarization, he]
  · right
    simp only [perform_diarization, he, Bool.false_eq_true, if_false]
    refine ⟨?_, by trivial⟩
    intro h0
    rw [sortDiarByStart] at h0
    have hl := congrArg List.length h0
    rw [List.length_insertionSort] at hl
    exact he (by rw [List.isEmpty_iff, ← List.length_eq_zero]; exact hl)

theorem perform_speech_recognition_cases (diarRows : List DiarSegment)
    (outcomes : ℕ → AsrOutcome) (path : String) :
    ((perform_speech_recognition diarRows outcomes path).1 = [] ∧
      (perform_speech_recognition diarRows outcomes path).2.2 = []) ∨
    ((perform_speech_recognition diarRows outcomes path).1 ≠ [] ∧
      (perform_speech_recognition diarRows outcomes path).2.2 = [path]) := by
  by_cases he : (transcribe_audio_segments
      (extract_audio_segments diarRows) outcomes).isEmpty
  · left
    simp [perform_speech_recognition, he]
  · right
    simp only [perform_speech_recognition, he, Bool.false_eq_true, if_false]
    refine ⟨?_, by trivial⟩
    intro h0
    rw [sortAsrByStart] at h0
    have hl := congrArg List.length h0
    rw [List.length_insertionSort] at hl
    exact he (by rw [List.isEmpty_iff, ← List.length_eq_zero]; exact hl)

theorem isEmpty_false_of_ne_nil {α : Type} {l : List α} (h : l ≠ []) :
    l.isEmpty = false := by
  cases l with
  | nil => exact absurd rfl h
  | cons x xs => rfl

/-- C1: the driver stops right after diarization when that table is
empty, returning a metrics dict holding only the "diarization" entry
and writing no files at all; it stops right after recognition when that
table is empty, returning exactly the diarization and asr entries with
only the diarization CSV on disk; and with both tables nonempty it
always runs correction and summarization, records all four entries, and
writes every stage file, the minutes and the metrics JSON. -/
theorem pipeline_short_circuit (inp : PipelineInput) (pre : String) :
    ((perform_diarization inp.diarTurns (pre ++ "_diarization.csv")).1 = [] →
      (run_complete_pipeline inp pre).metrics =
        [("diarization", StageMetrics.diar
          (perform_diarization inp.diarTurns (pre ++ "_diarization.csv")).2.1)] ∧
      (run_complete_pipeline inp pre).files_written = []) ∧
    ((perform_diarization inp.diarTurns (pre ++ "_diarization.csv")).1 ≠ [] →
      (perform_speech_recognition
        (perform_diarization inp.diarTurns (pre ++ "_diarization.csv")).1
        inp.asrOutcomes (pre ++ "_asr.csv")).1 = [] →
      (run_complete_pipeline inp pre).metrics =
        [("diarization", StageMetrics.diar
            (perform_diarization inp.diarTurns (pre ++ "_diarization.csv")).2.1),
          ("asr", StageMetrics.asr
            (perform_speech_recognition
              (perform_diarization inp.diarTurns (pre ++ "_diarization.csv")).1
              inp.asrOutcomes (pre ++ "_asr.csv")).2.1)] ∧
      (run_complete_pipeline inp pre).files_written =
        [pre ++ "_diarization.csv"]) ∧
    ((perform_diarization inp.diarTurns (pre ++ "_diarization.csv")).1 ≠ [] →
      (perform_speech_recognition
        (perform_diarization inp.diarTurns (pre ++ "_diarization.csv")).1
        inp.asrOutcomes (pre ++ "_asr.csv")).1 ≠ [] →
      (run_complete_pipeline inp pre).metrics =
        [("diarization", StageMetrics.diar
            (perform_diarization inp.diarTurns (pre ++ "_diarization.csv")).2.1),
          ("asr", StageMetrics.asr
            (perform_speech_recognition
              (perform_diarization inp.diarTurns (pre ++ "_diarization.csv")).1
              inp.asrOutcomes (pre ++ "_asr.csv")).2.1),
          ("correction", StageMetrics.corr
            (test_correction
              (perform_speech_recognition
                (perform_diarization inp.diarTurns (pre ++ "_diarization.csv")).1
                inp.asrOutcomes (pre ++ "_asr.csv")).1
              inp.corrOracle (pre ++ "_correction.csv")).2.1),
          ("summarization", StageMetrics.summ
            (test_summarization
              (test_correction
                (perform_speech_recognition
                  (perform_diarization inp.diarTurns
                    (pre ++ "_diarization.csv")).1
                  inp.asrOutcomes (pre ++ "_asr.csv")).1
                inp.corrOracle (pre ++ "_correction.csv")).1
              inp.summOracle (pre ++ "_summarization.csv")).2.1)] ∧
      (run_complete_pipeline inp pre).files_written =
        [pre ++ "_diarization.csv", pre ++ "_asr.csv",
          pre ++ "_correction.csv", pre ++ "_summarization.csv",
          pre ++ "_meeting_minutes.txt", pre ++ "_metrics.json"]) := by
  refine ⟨?_, ?_, ?_⟩
  · intro h1
    rcases perform_diarization_cases inp.diarTurns (pre ++ "_diarization.csv")
      with ⟨_, hf, _⟩ | ⟨hne, _⟩
    · simp only [run_complete_pipeline, h1, List.isEmpty_nil, if_true]
      exact ⟨by trivial, hf⟩
    · exact absurd h1 hne
  · intro h1 h2
    rcases perform_diarization_cases inp.diarTurns (pre ++ "_diarization.csv")
      with ⟨he, _, _⟩ | ⟨_, hdf⟩
    · exact absurd he h1
    · simp only [run_complete_pipeline, isEmpty_false_of_ne_nil h1,
        Bool.false_eq_true, if_false, h2, List.isEmpty_nil, if_true]
      rcases perform_speech_recognition_cases
          (perform_diarization inp.diarTurns (pre ++ "_diarization.csv")).1
          inp.asrOutcomes (pre ++ "_asr.csv") with ⟨_, haf⟩ | ⟨hane, _⟩
      · refine ⟨by trivial, ?_⟩
        rw [hdf, haf]
        simp
      · exact absurd h2 hane
  · intro h1 h2
    rcases perform_diarization_cases inp.diarTurns (pre ++ "_diarization.csv")
      with ⟨he, _, _⟩ | ⟨_, hdf⟩
    · exact absurd he h1
    · rcases perform_speech_recognition_cases
          (perform_diarization inp.diarTurns (pre ++ "_diarization.csv")).1
          inp.asrOutcomes (pre ++ "_asr.csv") with ⟨ha, _⟩ | ⟨_, haf⟩
      · exact absurd ha h2
      · simp only [run_complete_pipeline, isEmpty_false_of_ne_nil h1,
          isEmpty_false_of_ne_nil h2, Bool.false_eq_true, if_false]
        refine ⟨by trivial, ?_⟩
        rw [hdf, haf]
        rfl

/-- Concrete witness for C1: three runs — empty diarization (only the
"diarization" entry, no files), empty recognition (diarization + asr
entries, one file), and a full pipeline (all four entries, six files). -/
theorem pipeline_short_circuit_witness :
    ((perform_diarization ([] : List RawTurn) ("t" ++ "_diarization.csv")).1 = [] ∧
      (run_complete_pipeline ⟨[], fun _ => AsrOutcome.asrError, fun _ => none,
          fun _ => none⟩ "t").metrics =
        [("diarization", StageMetrics.diar DiarMetrics.noSegments)] ∧
      (run_complete_pipeline ⟨[], fun _ => AsrOutcome.asrError, fun _ => none,
          fun _ => none⟩ "t").files_written = []) ∧
    ((perform_diarization [⟨0, 1, "A"⟩] ("t" ++ "_diarization.csv")).1 ≠ [] ∧
      (perform_speech_recognition
        (perform_diarization [⟨0, 1, "A"⟩] ("t" ++ "_diarization.csv")).1
        (fun _ => AsrOutcome.asrError) ("t" ++ "_asr.csv")).1 = [] ∧
      (run_complete_pipeline ⟨[⟨0, 1, "A"⟩], fun _ => AsrOutcome.asrError,
          fun _ => none, fun _ => none⟩ "t").files_written =
        ["t" ++ "_diarization.csv"]) ∧
    ((perform_speech_recognition
        (perform_diarization [⟨0, 1, "A"⟩] ("t" ++ "_diarization.csv")).1
        (fun _ => AsrOutcome.success "hi") ("t" ++ "_asr.csv")).1 ≠ [] ∧
      (run_complete_pipeline ⟨[⟨0, 1, "A"⟩], fun _ => AsrOutcome.success "hi",
          fun _ => some "ok", fun _ => some "s"⟩ "t").metrics.map Prod.fst =
        ["diarization", "asr", "correction", "summarization"] ∧
      (run_complete_pipeline ⟨[⟨0, 1, "A"⟩], fun _ => AsrOutcome.success "hi",
          fun _ => some "ok", fun _ => some "s"⟩ "t").files_written =
        ["t" ++ "_diarization.csv", "t" ++ "_asr.csv", "t" ++ "_correction.csv",
          "t" ++ "_summarization.csv", "t" ++ "_meeting_minutes.txt",
          "t" ++ "_metrics.json"]) := by
  have hseg : diarSegments [⟨0, 1, "A"⟩] = [⟨"A", 0, 1, 1 - 0⟩] := by
    norm_num [diarSegments, MIN_SEGMENT_DURATION]
  have hd2 : (perform_diarization [⟨0, 1, "A"⟩] ("t" ++ "_diarization.csv")).1 =
      [⟨"A", 0, 1, 1 - 0⟩] := by
    simp [perform_diarization, hseg, sortDiarByStart, List.insertionSort]
  have hd2ne : (perform_diarization [⟨0, 1, "A"⟩]
      ("t" ++ "_diarization.csv")).1 ≠ [] := by
    rw [hd2]
    simp
  have ha2 : (perform_speech_recognition
      (perform_diarization [⟨0, 1, "A"⟩] ("t" ++ "_diarization.csv")).1
      (fun _ => AsrOutcome.asrError) ("t" ++ "_asr.csv")).1 = [] := by
    rw [hd2]
    decide
  have ha3ne : (perform_speech_recognition
      (perform_diarization [⟨0, 1, "A"⟩] ("t" ++ "_diarization.csv")).1
      (fun _ => AsrOutcome.success "hi") ("t" ++ "_asr.csv")).1 ≠ [] := by
    rw [hd2]
    decide
  have h1 := (pipeline_short_circuit ⟨[], fun _ => AsrOutcome.asrError,
    fun _ => none, fun _ => none⟩ "t").1 rfl
  have h2 := (pipeline_short_circuit ⟨[⟨0, 1, "A"⟩],
    fun _ => AsrOutcome.asrError, fun _ => none, fun _ => none⟩ "t").2.1
    hd2ne ha2
  have h3 := (pipeline_short_circuit ⟨[⟨0, 1, "A"⟩],
    fun _ => AsrOutcome.success "hi", fun _ => some "ok", fun _ => some "s"⟩
    "t").2.2 hd2ne ha3ne
  refine ⟨⟨rfl, h1.1, h1.2⟩, ⟨hd2ne, ha2, h2.2⟩, ⟨ha3ne, ?_, h3.2⟩⟩
  rw [h3.1]
  rfl
